import Mathlib

/-!
Verification development for the cliplin context-store layer
(`src/cliplin/utils/chromadb.py`): the collection routing table, the path
classifier, and the ChromaDB-backed `ContextStore` facade, shallowly embedded
in Lean.  File-system paths are modelled as lists of path components; the
backing ChromaDB engine (an external library, described in the spec as a
persistent collection-oriented document store) is modelled as an explicit
in-memory state with `Except`-style failures.
-/

deriving instance DecidableEq for Except

namespace Cliplin

/-- Document / collection metadata: a string-keyed mapping, modelled as an
association list.  The empty metadata object `{}` is `[]`. -/
abbrev Meta := List (String × String)

/-- One value of `COLLECTION_MAPPINGS`: source directories, glob file
pattern, and semantic type tag. -/
structure Mapping where
  directories : List String
  file_pattern : String
  type : String
deriving Repr, DecidableEq

/-- The static routing table `COLLECTION_MAPPINGS` from the source, in its
fixed (insertion) iteration order. -/
def COLLECTION_MAPPINGS : List (String × Mapping) :=
  [ ("business-and-architecture",
      { directories := ["docs/adrs", "docs/business"],
        file_pattern := "*.md", type := "adr" }),
    ("features",
      { directories := ["docs/features"],
        file_pattern := "*.feature", type := "feature" }),
    ("tech-specs",
      { directories := ["docs/ts4"],
        file_pattern := "*.ts4", type := "ts4" }),
    ("uisi",
      { directories := ["docs/ui-intent"],
        file_pattern := "*.yaml", type := "ui-intent" }) ]

/-- `REQUIRED_COLLECTIONS = list(COLLECTION_MAPPINGS.keys())`. -/
def REQUIRED_COLLECTIONS : List String := COLLECTION_MAPPINGS.map Prod.fst

/-- Glob matching on character lists, as Python `fnmatch` behaves on the
patterns used by the routing table: `*` matches any (possibly empty)
character sequence, `?` matches one character, anything else is literal.
The `Nat` argument is structural-recursion fuel; every step shrinks
`pattern.length + s.length`, so `fnmatch` below always supplies enough. -/
def fnmatchFuel : Nat → List Char → List Char → Bool
  | 0, _, _ => false
  | _ + 1, [], [] => true
  | _ + 1, [], _ :: _ => false
  | n + 1, '*' :: ps, [] => fnmatchFuel n ps []
  | n + 1, '*' :: ps, c :: cs =>
    fnmatchFuel n ps (c :: cs) || fnmatchFuel n ('*' :: ps) cs
  | n + 1, '?' :: ps, _ :: cs => fnmatchFuel n ps cs
  | n + 1, p :: ps, c :: cs => p == c && fnmatchFuel n ps cs
  | _ + 1, _ :: _, [] => false

/-- Glob matching on strings (Python `fnmatch.fnmatchcase`). -/
def fnmatch (pattern s : String) : Bool :=
  fnmatchFuel (pattern.length + s.length + 1) pattern.toList s.toList

/-- A file-system path, modelled as its list of (already normalized)
components; the POSIX rendering of `["p", "a.md"]` is `p/a.md`. -/
abbrev PyPath := List String

/-- Python `str.startswith`: character-level prefix test. -/
def strStartsWith (s pre : String) : Bool :=
  List.isPrefixOf pre.toList s.toList

/-- `str(path)` for a relative path given by its components; the empty
relative path renders as `"."` exactly as `str(Path("."))` does. -/
def strOfPath (p : PyPath) : String :=
  match p with
  | [] => "."
  | _ => String.intercalate "/" p

/-- `PurePath.match` with a single-component relative pattern: the pattern is
glob-matched against the path's last component. -/
def pathMatch (p : PyPath) (pattern : String) : Bool :=
  match p.getLast? with
  | none => false
  | some base => fnmatch pattern base

/-- `file_path.relative_to(project_root)`: strips the root components when
the root is a component-wise prefix of the path, and fails (Python raises
`ValueError`, the spec's `PathOutsideRootError`) otherwise. -/
def relative_to (file_path project_root : PyPath) : Option PyPath :=
  if List.isPrefixOf project_root file_path then
    some (file_path.drop project_root.length)
  else none

/-- The classifier's failure mode: the file path does not lie under the
project root. -/
inductive ClassifierError
  | pathOutsideRoot
deriving Repr, DecidableEq

/-- The body of the classifier's nested loop for one mapping: some configured
directory is a string prefix of `str(relative_path)` and the file path
matches the mapping's glob pattern. -/
def mappingMatches (rel : PyPath) (file_path : PyPath) (m : Mapping) : Bool :=
  m.directories.any
    (fun d => strStartsWith (strOfPath rel) d && pathMatch file_path m.file_pattern)

/-- `get_collection_for_file(file_path, project_root)`: first mapping (in the
table's fixed order) whose directory/pattern pair matches wins; `None` when
nothing matches; fails when the path is not under the root. -/
def get_collection_for_file (file_path project_root : PyPath) :
    Except ClassifierError (Option String) :=
  match relative_to file_path project_root with
  | none => .error .pathOutsideRoot
  | some rel =>
    .ok ((COLLECTION_MAPPINGS.find?
      (fun nm => mappingMatches rel file_path nm.2)).map Prod.fst)

/-- `get_file_type(file_path, project_root)`: identical loop to
`get_collection_for_file`, returning the mapping's type tag instead. -/
def get_file_type (file_path project_root : PyPath) :
    Except ClassifierError (Option String) :=
  match relative_to file_path project_root with
  | none => .error .pathOutsideRoot
  | some rel =>
    .ok ((COLLECTION_MAPPINGS.find?
      (fun nm => mappingMatches rel file_path nm.2)).map (fun nm => nm.2.type))

example : get_collection_for_file ["p", "docs", "adrs", "0001-x.md"] ["p"]
    = .ok (some "business-and-architecture") := by decide

example : get_collection_for_file ["p", "README.md"] ["p"] = .ok none := by decide

example : get_file_type ["p", "docs", "ui-intent", "a.yaml"] ["p"]
    = .ok (some "ui-intent") := by decide

example : get_collection_for_file ["q", "docs", "adrs", "a.md"] ["p"]
    = .error .pathOutsideRoot := by decide

/-! ## The backing engine, modelled as explicit state

The spec treats ChromaDB as an external collaborator: "a persistent,
collection-oriented document store supporting create/get/list/delete
collection, and per-collection add/get/update/delete/query/peek/count/modify
operations".  We model a client as the ordered list of its collections, a
collection as its name, metadata and ordered document list, and each engine
operation as an `Except`-valued state transformer.  Engine-surfaced failures
follow the spec's error taxonomy (`DuplicateDocumentError`,
`DimensionMismatchError`, `DocumentNotFoundError`, `CollectionNotFoundError`,
client-construction failure). -/

/-- A stored document: id, text, metadata. -/
structure Doc where
  id : String
  document : String
  metadata : Meta
deriving Repr, DecidableEq

/-- A named collection inside the engine. -/
structure Collection where
  name : String
  metadata : Meta
  docs : List Doc
deriving Repr, DecidableEq

/-- The engine client: the ordered list of its collections. -/
structure Client where
  collections : List Collection
deriving Repr, DecidableEq

/-- Failures surfaced by the engine or by client construction. -/
inductive EngineError
  | clientConstruction
  | collectionNotFound
  | collectionExists
  | duplicateDocument
  | dimensionMismatch
  | documentNotFound
deriving Repr, DecidableEq

/-- `client.get_collection(name=...)`: first collection with the name, else
`CollectionNotFoundError`. -/
def Client.getCollection (cl : Client) (name : String) :
    Except EngineError Collection :=
  match cl.collections.find? (fun c => c.name == name) with
  | some c => .ok c
  | none => .error .collectionNotFound

/-- Whether a collection with the given name exists. -/
def Client.hasCollection (cl : Client) (name : String) : Bool :=
  cl.collections.any (fun c => c.name == name)

/-- `client.create_collection(...)`: fails if the name is taken, else
appends a fresh empty collection and returns it as the handle. -/
def Client.createCollection (cl : Client) (name : String) (metadata : Meta) :
    Except EngineError (Client × Collection) :=
  if cl.hasCollection name then .error .collectionExists
  else
    let col : Collection := { name := name, metadata := metadata, docs := [] }
    .ok ({ collections := cl.collections ++ [col] }, col)

/-- `client.get_or_create_collection(...)`: never fails. -/
def Client.getOrCreateCollection (cl : Client) (name : String) (metadata : Meta) :
    Client :=
  if cl.hasCollection name then cl
  else { collections := cl.collections ++ [{ name := name, metadata := metadata, docs := [] }] }

/-- `client.delete_collection(name=...)`: fails with
`CollectionNotFoundError` when absent, else removes every collection of that
name. -/
def Client.deleteCollection (cl : Client) (name : String) :
    Except EngineError Client :=
  if cl.hasCollection name then
    .ok { collections := cl.collections.filter (fun c => c.name != name) }
  else .error .collectionNotFound

/-- Write back a mutated collection handle under the given name. -/
def Client.setCollection (cl : Client) (name : String) (col : Collection) :
    Client :=
  { collections := cl.collections.map (fun c => if c.name == name then col else c) }

/-- `col.modify(metadata=...)`: replace a collection's metadata in place. -/
def Client.setCollectionMeta (cl : Client) (name : String) (m : Meta) : Client :=
  { collections :=
      cl.collections.map (fun c => if c.name == name then { c with metadata := m } else c) }

/-- `col.modify(name=...)`: rename a collection in place. -/
def Client.renameCollection (cl : Client) (name newName : String) : Client :=
  { collections :=
      cl.collections.map (fun c => if c.name == name then { c with name := newName } else c) }

/-- Whether a collection already holds a document with the given id. -/
def Collection.hasId (col : Collection) (i : String) : Bool :=
  col.docs.any (fun d => d.id == i)

/-- Whether an id list contains a repeated id. -/
def hasDupIds : List String → Bool
  | [] => false
  | i :: is => is.contains i || hasDupIds is

/-- Zip parallel id/document/metadata lists back into documents. -/
def zipDocs : List String → List String → List Meta → List Doc
  | i :: is, d :: ds, m :: ms =>
    { id := i, document := d, metadata := m } :: zipDocs is ds ms
  | _, _, _ => []

/-- `col.add(ids=..., documents=..., metadatas=...)`: the engine validates
that the parallel lists agree in length (`DimensionMismatchError`) and that
no added id repeats or already exists (`DuplicateDocumentError`, per the
spec: duplicates are an error, not an upsert); on success the documents are
appended. -/
def Collection.add (col : Collection) (ids documents : List String)
    (metadatas : List Meta) : Except EngineError Collection :=
  if ids.length == documents.length && ids.length == metadatas.length then
    if !hasDupIds ids && ids.all (fun i => !col.hasId i) then
      .ok { col with docs := col.docs ++ zipDocs ids documents metadatas }
    else .error .duplicateDocument
  else .error .dimensionMismatch

/-- The `{ids, documents, metadatas}` bundle an engine `get` returns. -/
structure GetResult where
  ids : List String
  documents : List String
  metadatas : List Meta
deriving Repr, DecidableEq

/-- `col.get(include=["documents", "metadatas"])` with no filter: every
document, in storage order. -/
def Collection.getAll (col : Collection) : GetResult :=
  { ids := col.docs.map (fun d => d.id),
    documents := col.docs.map (fun d => d.document),
    metadatas := col.docs.map (fun d => d.metadata) }

/-- `col.get(ids=[...])`: the stored documents whose id is requested;
missing ids are simply not returned (no error). -/
def Collection.getByIds (col : Collection) (ids : List String) : GetResult :=
  let sel := col.docs.filter (fun d => ids.contains d.id)
  { ids := sel.map (fun d => d.id),
    documents := sel.map (fun d => d.document),
    metadatas := sel.map (fun d => d.metadata) }

/-- `col.delete(ids=...)`: removes the documents whose id is listed; ids not
present are a no-op, never an error. -/
def Collection.deleteIds (col : Collection) (ids : List String) : Collection :=
  { col with docs := col.docs.filter (fun d => !ids.contains d.id) }

/-- The keyword arguments `update_documents` forwards to `col.update`: `ids`
always, `documents`/`metadatas` only when supplied (absent dict key =
`none`). -/
structure UpdateArgs where
  ids : List String
  documents : Option (List String)
  metadatas : Option (List Meta)
deriving Repr, DecidableEq

/-- Apply an engine update position by position: the document with the k-th
id receives the k-th new text / metadata when those lists were supplied. -/
def applyUpdates : List Doc → List String → Option (List String) →
    Option (List Meta) → List Doc
  | docs, [], _, _ => docs
  | docs, i :: is, ds, ms =>
    let d0 : Option String := ds.bind List.head?
    let m0 : Option Meta := ms.bind List.head?
    let docs := docs.map (fun d =>
      if d.id == i then
        { d with document := d0.getD d.document, metadata := m0.getD d.metadata }
      else d)
    applyUpdates docs is (ds.map List.tail) (ms.map List.tail)

/-- `col.update(**kwargs)`: the engine validates supplied list lengths
(`DimensionMismatchError`) and that every id exists
(`DocumentNotFoundError`); only supplied fields overwrite. -/
def Collection.update (col : Collection) (args : UpdateArgs) :
    Except EngineError Collection :=
  let docLenOk : Bool := match args.documents with
    | some d => d.length == args.ids.length
    | none => true
  let metaLenOk : Bool := match args.metadatas with
    | some m => m.length == args.ids.length
    | none => true
  if docLenOk && metaLenOk then
    if args.ids.all (fun i => col.hasId i) then
      .ok { col with docs := applyUpdates col.docs args.ids args.documents args.metadatas }
    else .error .documentNotFound
  else .error .dimensionMismatch

/-! ## The `ChromaDBContextStore` facade -/

/-- One `ChromaDBContextStore` instance: whether constructing the engine
client would succeed (the spec's `EngineUnavailableError` boundary), and the
client state itself. -/
structure StoreState where
  clientOk : Bool
  client : Client
deriving Repr, DecidableEq

/-- `self._client_or_raise()`: yields the (lazily created) client, or fails
when client construction fails. -/
def clientOrRaise (st : StoreState) : Except EngineError Client :=
  if st.clientOk then .ok st.client else .error .clientConstruction

/-- `verify_collections(client)`: the required collections missing from the
client, in required-list order. -/
def verify_collections (cl : Client) : List String :=
  let existing := cl.collections.map (fun c => c.name)
  REQUIRED_COLLECTIONS.filter (fun c => !existing.contains c)

/-- `ensure_collections()`: computes the missing required collections,
creates each with `get_or_create_collection`, and returns the missing
list. -/
def ensure_collections (st : StoreState) :
    Except EngineError (StoreState × List String) :=
  match clientOrRaise st with
  | .error e => .error e
  | .ok client =>
    let missing := verify_collections client
    let client :=
      missing.foldl (fun cl name => cl.getOrCreateCollection name []) client
    .ok ({ st with client := client }, missing)

/-- `document_exists(name, id)`: wraps the whole lookup — client
construction included — in a `try`/`except` that converts ANY failure into
`false`; on success, true iff the returned id list is non-empty. -/
def document_exists (st : StoreState) (collection_name document_id : String) :
    Bool :=
  match clientOrRaise st with
  | .error _ => false
  | .ok client =>
    match client.getCollection collection_name with
    | .error _ => false
    | .ok col => decide ((col.getByIds [document_id]).ids.length > 0)

/-- Python `metadatas or default`: `None` and the empty list are falsy. -/
def pythonOrMetas (metadatas : Option (List Meta)) (default : List Meta) :
    List Meta :=
  match metadatas with
  | none => default
  | some [] => default
  | some ms => ms

/-- The two normalization statements at the head of `add_documents`:
`metadatas = metadatas or [\x7b\x7d] * len(ids)` followed by the length
check replacing a mismatched list with one empty metadata object per id. -/
def normalizeMetadatas (ids : List String) (metadatas : Option (List Meta)) :
    List Meta :=
  let ms := pythonOrMetas metadatas (List.replicate ids.length [])
  if ms.length != ids.length then List.replicate ids.length [] else ms

/-- `add_documents(name, ids, documents, metadatas?)`: normalizes the
metadata list, adds through the engine, and returns `len(ids)`. -/
def add_documents (st : StoreState) (collection_name : String)
    (ids documents : List String) (metadatas : Option (List Meta)) :
    Except EngineError (StoreState × Nat) :=
  match clientOrRaise st with
  | .error e => .error e
  | .ok client =>
    match client.getCollection collection_name with
    | .error e => .error e
    | .ok col =>
      match col.add ids documents (normalizeMetadatas ids metadatas) with
      | .error e => .error e
      | .ok col2 =>
        .ok ({ st with client := client.setCollection collection_name col2 },
             ids.length)

/-- The `kwargs` dictionary built by `update_documents`: starts with `ids`
only, then conditionally inserts `documents` and `metadatas`. -/
def updateKwargs (ids : List String) (documents : Option (List String))
    (metadatas : Option (List Meta)) : UpdateArgs :=
  let kwargs : UpdateArgs := { ids := ids, documents := none, metadatas := none }
  let kwargs := match documents with
    | some d => { kwargs with documents := some d }
    | none => kwargs
  match metadatas with
  | some m => { kwargs with metadatas := some m }
  | none => kwargs

/-- `update_documents(name, ids, documents?, metadatas?)`: forwards exactly
the supplied fields to the engine update and returns `len(ids)`.  The third
result component records the kwargs actually forwarded to the engine. -/
def update_documents (st : StoreState) (collection_name : String)
    (ids : List String) (documents : Option (List String))
    (metadatas : Option (List Meta)) :
    Except EngineError (StoreState × Nat × UpdateArgs) :=
  match clientOrRaise st with
  | .error e => .error e
  | .ok client =>
    match client.getCollection collection_name with
    | .error e => .error e
    | .ok col =>
      match col.update (updateKwargs ids documents metadatas) with
      | .error e => .error e
      | .ok col2 =>
        .ok ({ st with client := client.setCollection collection_name col2 },
             ids.length, updateKwargs ids documents metadatas)

/-- `delete_documents(name, ids)`: engine delete (no-op for absent ids),
then returns `len(ids)`. -/
def delete_documents (st : StoreState) (collection_name : String)
    (ids : List String) : Except EngineError (StoreState × Nat) :=
  match clientOrRaise st with
  | .error e => .error e
  | .ok client =>
    match client.getCollection collection_name with
    | .error e => .error e
    | .ok col =>
      .ok ({ st with
              client := client.setCollection collection_name (col.deleteIds ids) },
           ids.length)

/-- The engine modifications `modify_collection` performs, in call order. -/
inductive ModEvent
  | setMetadata (metadata : Meta)
  | rename (name : String)
deriving Repr, DecidableEq

/-- `modify_collection(name, new_name?, new_metadata?)`: gets the handle,
then `col.modify(metadata=...)` when metadata is supplied, then
`col.modify(name=...)` when a new name is supplied — in that statement
order.  The returned event list records the engine modifications issued, in
order; renaming onto a taken name fails. -/
def modify_collection (st : StoreState) (collection_name : String)
    (new_name : Option String) (new_metadata : Option Meta) :
    Except EngineError (StoreState × List ModEvent) :=
  match clientOrRaise st with
  | .error e => .error e
  | .ok client =>
    match client.getCollection collection_name with
    | .error e => .error e
    | .ok _ =>
      let step1 : Client × List ModEvent :=
        match new_metadata with
        | some m =>
          (client.setCollectionMeta collection_name m, [ModEvent.setMetadata m])
        | none => (client, [])
      match new_name with
      | some n =>
        if step1.1.hasCollection n then .error .collectionExists
        else
          .ok ({ st with client := step1.1.renameCollection collection_name n },
               step1.2 ++ [ModEvent.rename n])
      | none => .ok ({ st with client := step1.1 }, step1.2)

/-- Python `lst or default` for a list-valued expression: the empty list is
falsy. -/
def listOr {α : Type} (l : List α) (default : List α) : List α :=
  if l.isEmpty then default else l

/-- Python `metadata or \x7b\x7d` for an optional metadata argument. -/
def pyOrDict (metadata : Option Meta) : Meta :=
  match metadata with
  | none => []
  | some m => if m.isEmpty then [] else m

/-- The `try: client.delete_collection(new_name) except Exception: pass`
step of `fork_collection`: any failure is swallowed, leaving the client
unchanged. -/
def tryDeleteCollection (cl : Client) (name : String) : Client :=
  match cl.deleteCollection name with
  | .ok cl2 => cl2
  | .error _ => cl

/-- `fork_collection(name, new_name, metadata?)`: reads all documents of the
source collection, best-effort-deletes any collection occupying the new
name (`try`/`except: pass`), creates the destination, and copies the
documents over when there is at least one id (no zero-length add).  The
boolean result records whether an engine add call was issued. -/
def fork_collection (st : StoreState) (collection_name new_collection_name : String)
    (metadata : Option Meta) : Except EngineError (StoreState × Bool) :=
  match clientOrRaise st with
  | .error e => .error e
  | .ok client =>
    match client.getCollection collection_name with
    | .error e => .error e
    | .ok col =>
      let data := col.getAll
      let client := tryDeleteCollection client new_collection_name
      match client.createCollection new_collection_name (pyOrDict metadata) with
      | .error e => .error e
      | .ok (client, new_col) =>
        let ids := listOr data.ids []
        if ids.isEmpty then
          .ok ({ st with client := client }, false)
        else
          match new_col.add ids
              (listOr data.documents (List.replicate ids.length ""))
              (listOr data.metadatas (List.replicate ids.length [])) with
          | .error e => .error e
          | .ok new_col2 =>
            .ok ({ st with
                    client := client.setCollection new_collection_name new_col2 },
                 true)

/-! ## Helper lemmas -/

lemma any_and_const {α : Type} (l : List α) (f : α → Bool) (c : Bool) :
    (l.any fun d => f d && c) = (l.any f && c) := by
  cases c <;> simp

/-- The classifier's per-mapping test, with the (directory-independent)
pattern check factored out of the directory loop. -/
lemma mappingMatches_eq (rel file_path : PyPath) (m : Mapping) :
    mappingMatches rel file_path m
      = ((m.directories.any fun d => strStartsWith (strOfPath rel) d)
          && pathMatch file_path m.file_pattern) := by
  unfold mappingMatches
  exact any_and_const _ _ _

lemma beq_comm_str (a b : String) : (a == b) = (b == a) := by
  by_cases h : a = b
  · subst h; rfl
  · rw [beq_false_of_ne h, beq_false_of_ne (Ne.symm h)]

/-! ## C1: first-match classifier behaviour -/

/-- The Path Classifier as the spec words it: the first routing-table
mapping (in fixed table order) one of whose configured directories is a
string prefix of the path relative to the root, and whose glob pattern
matches the file's base name; absence when no mapping matches. -/
def classifier_spec (rel file_path : PyPath) : Option String :=
  (COLLECTION_MAPPINGS.find? (fun nm =>
      (nm.2.directories.any fun d => strStartsWith (strOfPath rel) d)
        && (match file_path.getLast? with
            | none => false
            | some base => fnmatch nm.2.file_pattern base))).map Prod.fst

/-- C1: for every file path under the project root,
`get_collection_for_file` returns the collection name of the first
routing-table mapping whose directory prefix matches the relative path and
whose glob pattern matches the base name, and absence when no pair matches;
concretely, under root `p`, `p/docs/adrs/0001-x.md` classifies to
`business-and-architecture` and `p/README.md` to absence. -/
theorem C1_classifier_first_match
    (file_path project_root rel : PyPath)
    (hrel : relative_to file_path project_root = some rel) :
    get_collection_for_file file_path project_root
      = .ok (classifier_spec rel file_path)
    ∧ ((∀ nm ∈ COLLECTION_MAPPINGS, ∀ d ∈ nm.2.directories,
          strStartsWith (strOfPath rel) d = false) →
        get_collection_for_file file_path project_root = .ok none)
    ∧ get_collection_for_file ["p", "docs", "adrs", "0001-x.md"] ["p"]
        = .ok (some "business-and-architecture")
    ∧ get_collection_for_file ["p", "README.md"] ["p"] = .ok none := by
  have hbody : get_collection_for_file file_path project_root
      = .ok ((COLLECTION_MAPPINGS.find?
          (fun nm => mappingMatches rel file_path nm.2)).map Prod.fst) := by
    unfold get_collection_for_file
    rw [hrel]
  refine ⟨?_, ?_, by decide, by decide⟩
  · rw [hbody]
    unfold classifier_spec
    have hpred : (fun nm : String × Mapping => mappingMatches rel file_path nm.2)
        = (fun nm : String × Mapping =>
            (nm.2.directories.any fun d => strStartsWith (strOfPath rel) d)
              && (match file_path.getLast? with
                  | none => false
                  | some base => fnmatch nm.2.file_pattern base)) := by
      funext nm
      rw [mappingMatches_eq]
      rfl
    rw [hpred]
  · intro hnone
    rw [hbody]
    have : COLLECTION_MAPPINGS.find?
        (fun nm => mappingMatches rel file_path nm.2) = none := by
      apply List.find?_eq_none.mpr
      intro nm hmem hmatch
      rw [mappingMatches_eq] at hmatch
      rcases Bool.and_eq_true_iff.mp hmatch with ⟨hany, _⟩
      rcases List.any_eq_true.mp hany with ⟨d, hd, hpre⟩
      rw [hnone nm hmem d hd] at hpre
      exact Bool.noConfusion hpre
    rw [this]
    rfl

/-- Witness for C1 at the concrete scenario input. -/
theorem C1_classifier_first_match_witness :
    get_collection_for_file ["p", "docs", "adrs", "0001-x.md"] ["p"]
      = .ok (classifier_spec ["docs", "adrs", "0001-x.md"]
              ["p", "docs", "adrs", "0001-x.md"]) :=
  (C1_classifier_first_match ["p", "docs", "adrs", "0001-x.md"] ["p"]
    ["docs", "adrs", "0001-x.md"] (by decide)).1

/-! ## C5: paths outside the root fail with the path-outside-root error -/

/-- C5: for every file path that does not lie under the project root, both
classifier operations fail with `PathOutsideRootError` (the failure
`Path.relative_to` raises) instead of returning a result. -/
theorem C5_outside_root_error (file_path project_root : PyPath)
    (h : List.isPrefixOf project_root file_path = false) :
    get_collection_for_file file_path project_root
      = .error ClassifierError.pathOutsideRoot
    ∧ get_file_type file_path project_root
      = .error ClassifierError.pathOutsideRoot := by
  have hrel : relative_to file_path project_root = none := by
    unfold relative_to
    rw [h]
    rfl
  constructor
  · unfold get_collection_for_file
    rw [hrel]
  · unfold get_file_type
    rw [hrel]

/-- Witness for C5: `q/a.md` is not under root `p`. -/
theorem C5_outside_root_error_witness :
    get_collection_for_file ["q", "a.md"] ["p"]
      = .error ClassifierError.pathOutsideRoot
    ∧ get_file_type ["q", "a.md"] ["p"]
      = .error ClassifierError.pathOutsideRoot :=
  C5_outside_root_error ["q", "a.md"] ["p"] (by decide)

/-! ## C8: `get_file_type` matches `get_collection_for_file` -/

/-- The type tag a routing-table entry associates to a collection name. -/
def typeOfCollection (name : String) : Option String :=
  (COLLECTION_MAPPINGS.find? (fun nm => nm.1 == name)).map (fun nm => nm.2.type)

lemma find?_fst_beq_of_nodup_mem {l : List (String × Mapping)}
    (hnd : (l.map Prod.fst).Nodup) {nm : String × Mapping} (hmem : nm ∈ l) :
    l.find? (fun x => x.1 == nm.1) = some nm := by
  induction l with
  | nil => exact absurd hmem (List.not_mem_nil nm)
  | cons x xs ih =>
    rcases List.mem_cons.mp hmem with heq | hmemtl
    · subst heq
      exact List.find?_cons_of_pos xs (beq_self_eq_true nm.1)
    · have hx : x.1 ≠ nm.1 := by
        intro hcontra
        have : x.1 ∈ xs.map Prod.fst := List.mem_map.mpr ⟨nm, hmemtl, hcontra.symm⟩
        exact (List.nodup_cons.mp (by simpa using hnd)).1 this
      rw [List.find?_cons_of_neg xs (by simp [hx])]
      exact ih (List.nodup_cons.mp (by simpa using hnd)).2 hmemtl

lemma collection_mappings_names_nodup :
    (COLLECTION_MAPPINGS.map Prod.fst).Nodup := by decide

lemma collection_mappings_types_nodup :
    (COLLECTION_MAPPINGS.map (fun nm => nm.2.type)).Nodup := by decide

/-- C8: `get_file_type` uses the identical matching rule as
`get_collection_for_file`: it returns the matched mapping's type tag exactly
when the latter returns that mapping's collection name, and absence exactly
when the latter returns absence. -/
theorem C8_get_file_type_matches_collection (file_path project_root : PyPath) :
    get_file_type file_path project_root
      = (get_collection_for_file file_path project_root).map
          (fun o => o.bind typeOfCollection)
    ∧ (get_file_type file_path project_root = .ok none
        ↔ get_collection_for_file file_path project_root = .ok none)
    ∧ ∀ nm ∈ COLLECTION_MAPPINGS,
        (get_collection_for_file file_path project_root = .ok (some nm.1)
          ↔ get_file_type file_path project_root = .ok (some nm.2.type)) := by
  cases hrel : relative_to file_path project_root with
  | none =>
    have hcol : get_collection_for_file file_path project_root
        = .error ClassifierError.pathOutsideRoot := by
      unfold get_collection_for_file; rw [hrel]
    have htyp : get_file_type file_path project_root
        = .error ClassifierError.pathOutsideRoot := by
      unfold get_file_type; rw [hrel]
    rw [hcol, htyp]
    refine ⟨rfl, by simp, ?_⟩
    intro nm _
    constructor <;> intro hcontra <;> exact Except.noConfusion hcontra
  | some rel =>
    have hcol : get_collection_for_file file_path project_root
        = .ok ((COLLECTION_MAPPINGS.find?
            (fun nm => mappingMatches rel file_path nm.2)).map Prod.fst) := by
      unfold get_collection_for_file; rw [hrel]
    have htyp : get_file_type file_path project_root
        = .ok ((COLLECTION_MAPPINGS.find?
            (fun nm => mappingMatches rel file_path nm.2)).map
              (fun nm => nm.2.type)) := by
      unfold get_file_type; rw [hrel]
    rw [hcol, htyp]
    cases hF : COLLECTION_MAPPINGS.find?
        (fun nm => mappingMatches rel file_path nm.2) with
    | none =>
      refine ⟨rfl, by simp, ?_⟩
      intro nm _
      simp
    | some nm0 =>
      have hmem0 : nm0 ∈ COLLECTION_MAPPINGS := List.mem_of_find?_eq_some hF
      have htype : typeOfCollection nm0.1 = some nm0.2.type := by
        unfold typeOfCollection
        rw [find?_fst_beq_of_nodup_mem collection_mappings_names_nodup hmem0]
        rfl
      refine ⟨by simp [Except.map, htype], by simp, ?_⟩
      intro nm hmem
      constructor
      · intro h1
        have h1' : nm0.1 = nm.1 := by simpa using h1
        have heq : nm0 = nm :=
          List.inj_on_of_nodup_map collection_mappings_names_nodup
            hmem0 hmem h1'
        subst heq
        rfl
      · intro h2
        have h2' : nm0.2.type = nm.2.type := by simpa using h2
        have heq : nm0 = nm :=
          List.inj_on_of_nodup_map collection_mappings_types_nodup
            hmem0 hmem h2'
        subst heq
        rfl

/-- Witness for C8's per-mapping biconditional at the concrete scenario
input and the first routing-table entry. -/
theorem C8_get_file_type_matches_collection_witness :
    get_collection_for_file ["p", "docs", "adrs", "0001-x.md"] ["p"]
        = .ok (some "business-and-architecture")
      ↔ get_file_type ["p", "docs", "adrs", "0001-x.md"] ["p"]
        = .ok (some "adr") :=
  (C8_get_file_type_matches_collection
      ["p", "docs", "adrs", "0001-x.md"] ["p"]).2.2
    ("business-and-architecture",
      { directories := ["docs/adrs", "docs/business"],
        file_pattern := "*.md", type := "adr" })
    (by decide)

/-! ## Store-side helper lemmas -/

lemma clientOrRaise_ok {st : StoreState} (hok : st.clientOk = true) :
    clientOrRaise st = .ok st.client := by
  unfold clientOrRaise
  rw [hok]
  rfl

lemma length_filter_pos {α : Type} (p : α → Bool) (l : List α) :
    0 < (l.filter p).length ↔ l.any p = true := by
  constructor
  · intro h
    rw [List.length_pos] at h
    rcases List.exists_mem_of_ne_nil _ h with ⟨x, hx⟩
    exact List.any_eq_true.mpr
      ⟨x, List.mem_of_mem_filter hx, List.of_mem_filter hx⟩
  · intro h
    rcases List.any_eq_true.mp h with ⟨x, hx, hpx⟩
    rw [List.length_pos]
    intro hnil
    have : x ∈ l.filter p := List.mem_filter.mpr ⟨hx, hpx⟩
    rw [hnil] at this
    exact absurd this (List.not_mem_nil x)

lemma contains_singleton {α : Type} [BEq α] (a x : α) :
    ([a].contains x) = (x == a) := by
  cases h : x == a <;> simp [List.contains, List.elem, h]

/-! ## C6: `document_exists` never raises -/

/-- C6: `document_exists` is total (never raises): it returns `true` exactly
when the client can be constructed, the collection lookup succeeds, and the
engine get for the id yields a non-empty id list; every failure — client
construction included — yields `false`. -/
theorem C6_document_exists_never_raises (st : StoreState)
    (name did : String) :
    document_exists st name did = true
      ↔ (st.clientOk = true
          ∧ ∃ col, st.client.getCollection name = .ok col
              ∧ col.hasId did = true) := by
  cases hok : st.clientOk with
  | false =>
    have hde : document_exists st name did = false := by
      unfold document_exists
      simp only [show clientOrRaise st = .error .clientConstruction by
        unfold clientOrRaise; rw [hok]; rfl]
    rw [hde]
    simp
  | true =>
    cases hcol : st.client.getCollection name with
    | error e =>
      have hde : document_exists st name did = false := by
        unfold document_exists
        simp only [clientOrRaise_ok hok, hcol]
      rw [hde]
      simp
    | ok col =>
      have hde : document_exists st name did
          = decide ((col.getByIds [did]).ids.length > 0) := by
        unfold document_exists
        simp only [clientOrRaise_ok hok, hcol]
      rw [hde]
      have hids : (col.getByIds [did]).ids.length
          = (col.docs.filter (fun d => [did].contains d.id)).length := by
        unfold Collection.getByIds
        exact List.length_map _ _
      have hpred : (fun d : Doc => [did].contains d.id)
          = (fun d : Doc => d.id == did) := by
        funext d
        exact contains_singleton did d.id
      constructor
      · intro h
        refine ⟨rfl, col, rfl, ?_⟩
        have hpos := of_decide_eq_true h
        rw [hids, hpred] at hpos
        exact (length_filter_pos _ _).mp hpos
      · rintro ⟨-, col', hcol', hid⟩
        cases hcol'
        apply decide_eq_true
        rw [hids, hpred]
        exact (length_filter_pos _ _).mpr hid

/-- Witness for C6 at a concrete store holding one document. -/
theorem C6_document_exists_never_raises_witness :
    document_exists
        { clientOk := true,
          client := { collections :=
            [{ name := "c", metadata := [],
               docs := [{ id := "x", document := "t", metadata := [] }] }] } }
        "c" "x" = true
      ↔ (({ clientOk := true,
            client := { collections :=
              [{ name := "c", metadata := [],
                 docs := [{ id := "x", document := "t", metadata := [] }] }] } }
            : StoreState).clientOk = true
          ∧ ∃ col,
              ({ collections :=
                  [{ name := "c", metadata := [],
                     docs := [{ id := "x", document := "t", metadata := [] }] }] }
                : Client).getCollection "c" = .ok col
              ∧ col.hasId "x" = true) :=
  C6_document_exists_never_raises _ "c" "x"

/-! ## C3: mismatched metadata lengths are silently normalized -/

/-- C3: when `add_documents` is given a metadata list whose length differs
from the id list's, the supplied metadatas are discarded and replaced by one
empty metadata object per id before the engine add (the call behaves exactly
as if no metadatas were supplied), no error arises from the mismatch at this
layer, and a successful call returns `len(ids)`. -/
theorem C3_add_documents_mismatch (st : StoreState) (name : String)
    (ids documents : List String) (ms : List Meta)
    (hlen : ms.length ≠ ids.length) :
    normalizeMetadatas ids (some ms) = List.replicate ids.length []
    ∧ add_documents st name ids documents (some ms)
        = add_documents st name ids documents none
    ∧ (∀ st' n, add_documents st name ids documents (some ms) = .ok (st', n)
        → n = ids.length) := by
  have hnorm : normalizeMetadatas ids (some ms) = List.replicate ids.length [] := by
    cases ms with
    | nil =>
      simp [normalizeMetadatas, pythonOrMetas, List.length_replicate]
    | cons m0 mrest =>
      have hbne : ((m0 :: mrest).length != ids.length) = true := by
        simpa using hlen
      simp only [normalizeMetadatas, pythonOrMetas]
      rw [if_pos hbne]
  have hnone : normalizeMetadatas ids none = List.replicate ids.length [] := by
    simp [normalizeMetadatas, pythonOrMetas, List.length_replicate]
  refine ⟨hnorm, ?_, ?_⟩
  · unfold add_documents
    rw [hnorm, hnone]
  · intro st' n h
    unfold add_documents at h
    split at h
    · exact Except.noConfusion h
    · split at h
      · exact Except.noConfusion h
      · split at h
        · exact Except.noConfusion h
        · injection h with hpair
          exact (congrArg Prod.snd hpair).symm

/-- Witness for C3: one id, an empty (hence mismatched) metadata list. -/
theorem C3_add_documents_mismatch_witness :
    normalizeMetadatas ["a"] (some []) = List.replicate 1 [] :=
  (C3_add_documents_mismatch
    { clientOk := true, client := { collections := [] } }
    "c" ["a"] ["d"] [] (by decide)).1

/-! ## C4: deleting unknown ids -/

lemma contains_true_iff_mem {α : Type} [BEq α] [LawfulBEq α]
    (l : List α) (a : α) : l.contains a = true ↔ a ∈ l := by
  simp

lemma getCollection_name {cl : Client} {name : String} {col : Collection}
    (h : cl.getCollection name = .ok col) : col.name = name := by
  unfold Client.getCollection at h
  cases hF : cl.collections.find? (fun c => c.name == name) with
  | none =>
    simp only [hF] at h
    exact Except.noConfusion h
  | some c =>
    simp only [hF] at h
    injection h with hc
    subst hc
    have hp := List.find?_some hF
    exact beq_iff_eq.mp hp

lemma getCollection_find? {cl : Client} {name : String} {col : Collection}
    (h : cl.getCollection name = .ok col) :
    cl.collections.find? (fun c => c.name == name) = some col := by
  unfold Client.getCollection at h
  cases hF : cl.collections.find? (fun c => c.name == name) with
  | none =>
    simp only [hF] at h
    exact Except.noConfusion h
  | some c =>
    simp only [hF] at h
    injection h with hc
    rw [hc]

lemma setCollection_getCollection {cl : Client} {name : String}
    {col col2 : Collection}
    (h : cl.getCollection name = .ok col) (hname : col2.name = name) :
    (cl.setCollection name col2).getCollection name = .ok col2 := by
  have hF := getCollection_find? h
  unfold Client.getCollection Client.setCollection
  rw [List.find?_map]
  have hcomp : ((fun c : Collection => c.name == name) ∘
      (fun c : Collection => if c.name == name then col2 else c))
      = (fun c : Collection => c.name == name) := by
    funext c
    by_cases hc : (c.name == name) = true
    · simp only [Function.comp_apply]
      rw [if_pos hc, hc, hname]
      exact beq_self_eq_true name
    · simp only [Function.comp_apply]
      rw [if_neg hc]
  rw [hcomp, hF]
  show Except.ok (if col.name == name then col2 else col) = Except.ok col2
  rw [if_pos (by rw [getCollection_name h]; exact beq_self_eq_true name)]

/-- The concrete store used for the C4 counterexample: one collection `c`
holding the single document `present`. -/
def c4Store : StoreState :=
  { clientOk := true,
    client := { collections :=
      [{ name := "c", metadata := [],
         docs := [{ id := "present", document := "text", metadata := [] }] }] } }

/-- C4 counterexample: deleting only the unknown id `unknown` returns count
1 (the length of the requested id list), not the zero deletions the claim
states. -/
theorem C4_counterexample :
    (delete_documents c4Store "c" ["unknown"]).map (fun r => r.2) = .ok 1
    ∧ (delete_documents c4Store "c" ["unknown"]).map (fun r => r.2)
        ≠ .ok 0 := by
  constructor
  · decide
  · decide

/-- C4 as amended: `delete_documents` with ids not present in the collection
does not raise and leaves the collection unchanged, but the returned count
is the length of the requested id list (so a call deleting only unknown ids
reports the number of ids requested, not zero). -/
theorem C4_delete_unknown_amended (st : StoreState) (name : String)
    (ids : List String) (col : Collection)
    (hok : st.clientOk = true)
    (hget : st.client.getCollection name = .ok col)
    (hunknown : ∀ i ∈ ids, col.hasId i = false) :
    ∃ st', delete_documents st name ids = .ok (st', ids.length)
      ∧ st'.client.getCollection name = .ok col := by
  have hdel : col.deleteIds ids = col := by
    unfold Collection.deleteIds
    have hfil : col.docs.filter (fun d => !ids.contains d.id) = col.docs := by
      apply List.filter_eq_self.mpr
      intro d hd
      cases hcon : ids.contains d.id with
      | false => rfl
      | true =>
        have hmem : d.id ∈ ids := (contains_true_iff_mem ids d.id).mp hcon
        have hfalse := hunknown d.id hmem
        have htrue : col.hasId d.id = true := by
          unfold Collection.hasId
          exact List.any_eq_true.mpr ⟨d, hd, beq_self_eq_true d.id⟩
        rw [hfalse] at htrue
        exact Bool.noConfusion htrue
    rw [hfil]
  refine ⟨{ st with
      client := st.client.setCollection name (col.deleteIds ids) }, ?_, ?_⟩
  · unfold delete_documents
    simp only [clientOrRaise_ok hok, hget]
  · simp only [hdel]
    exact setCollection_getCollection hget (getCollection_name hget)

/-- Witness for the amended C4 at the concrete counterexample store. -/
theorem C4_delete_unknown_amended_witness :
    ∃ st', delete_documents c4Store "c" ["unknown"]
        = .ok (st', ["unknown"].length)
      ∧ st'.client.getCollection "c"
        = .ok { name := "c", metadata := [],
                docs := [{ id := "present", document := "text", metadata := [] }] } :=
  C4_delete_unknown_amended c4Store "c" ["unknown"]
    { name := "c", metadata := [],
      docs := [{ id := "present", document := "text", metadata := [] }] }
    (by decide) (by decide) (by decide)

/-! ## C9: metadata change before rename -/

/-- C9: when `modify_collection` is called with both a new name and new
metadata and succeeds, the engine modifications it issued are exactly the
metadata change followed by the rename — metadata first, never the
reverse. -/
theorem C9_metadata_before_rename (st : StoreState) (name n : String)
    (m : Meta) (st' : StoreState) (evs : List ModEvent)
    (h : modify_collection st name (some n) (some m) = .ok (st', evs)) :
    evs = [ModEvent.setMetadata m, ModEvent.rename n] := by
  unfold modify_collection at h
  split at h
  · exact Except.noConfusion h
  · split at h
    · exact Except.noConfusion h
    · dsimp only at h
      split at h
      · exact Except.noConfusion h
      · injection h with hpair
        exact (congrArg Prod.snd hpair).symm

/-- The concrete store used for the C9 witness. -/
def c9Store : StoreState :=
  { clientOk := true,
    client := { collections := [{ name := "a", metadata := [], docs := [] }] } }

/-- The state after the C9 witness call: metadata set, then renamed. -/
def c9Store' : StoreState :=
  { clientOk := true,
    client := { collections :=
      [{ name := "b", metadata := [("k", "v")], docs := [] }] } }

/-- Witness for C9 at a concrete rename-plus-metadata call. -/
theorem C9_metadata_before_rename_witness :
    ([ModEvent.setMetadata [("k", "v")], ModEvent.rename "b"] : List ModEvent)
      = [ModEvent.setMetadata [("k", "v")], ModEvent.rename "b"] :=
  C9_metadata_before_rename c9Store "a" "b" [("k", "v")] c9Store'
    [ModEvent.setMetadata [("k", "v")], ModEvent.rename "b"] (by decide)

/-! ## C10: `update_documents` forwards exactly the supplied fields -/

/-- C10: `update_documents` performs no this-layer validation that at least
one of documents/metadatas is supplied: the kwargs forwarded to the engine
hold exactly the supplied optional fields (only ids when both are absent),
a call with both absent can still succeed, and every successful call
returns `len(ids)`. -/
theorem C10_update_documents_no_validation (st : StoreState) (name : String)
    (ids : List String) (documents : Option (List String))
    (metadatas : Option (List Meta)) :
    updateKwargs ids documents metadatas
      = { ids := ids, documents := documents, metadatas := metadatas }
    ∧ (∀ st' n args, update_documents st name ids documents metadatas
          = .ok (st', n, args)
        → n = ids.length
          ∧ args = { ids := ids, documents := documents, metadatas := metadatas })
    ∧ (∀ col, st.clientOk = true → st.client.getCollection name = .ok col
        → (∀ i ∈ ids, col.hasId i = true)
        → ∃ st', update_documents st name ids none none
            = .ok (st', ids.length,
                   { ids := ids, documents := none, metadatas := none })) := by
  have hkw : updateKwargs ids documents metadatas
      = { ids := ids, documents := documents, metadatas := metadatas } := by
    cases documents <;> cases metadatas <;> rfl
  refine ⟨hkw, ?_, ?_⟩
  · intro st' n args h
    unfold update_documents at h
    split at h
    · exact Except.noConfusion h
    · split at h
      · exact Except.noConfusion h
      · split at h
        · exact Except.noConfusion h
        · injection h with hpair
          have h2 := congrArg Prod.snd hpair
          exact ⟨(congrArg Prod.fst h2).symm,
                 (congrArg Prod.snd h2).symm.trans hkw⟩
  · intro col hok hget hin
    have hall : ids.all (fun i => col.hasId i) = true :=
      List.all_eq_true.mpr hin
    have hupd : col.update (updateKwargs ids none none)
        = .ok { col with docs := applyUpdates col.docs ids none none } := by
      show col.update { ids := ids, documents := none, metadatas := none }
          = .ok { col with docs := applyUpdates col.docs ids none none }
      unfold Collection.update
      simp only [hall]
      rfl
    refine ⟨StoreState.mk st.clientOk
      (st.client.setCollection name
        (Collection.mk col.name col.metadata
          (applyUpdates col.docs ids none none))), ?_⟩
    unfold update_documents
    simp only [clientOrRaise_ok hok, hget, hupd]
    rw [hok]
    rfl

/-! ## C7: `ensure_collections` is idempotent -/

lemma contains_names_eq_hasCollection (cl : Client) (n : String) :
    ((cl.collections.map (fun c => c.name)).contains n) = cl.hasCollection n := by
  rw [Bool.eq_iff_iff, contains_true_iff_mem]
  unfold Client.hasCollection
  rw [List.any_eq_true]
  constructor
  · intro h
    rcases List.mem_map.mp h with ⟨c, hc, hname⟩
    exact ⟨c, hc, by rw [hname]; exact beq_self_eq_true n⟩
  · rintro ⟨c, hc, hbeq⟩
    exact List.mem_map.mpr ⟨c, hc, beq_iff_eq.mp hbeq⟩

lemma getOrCreate_preserves (cl : Client) (m n : String)
    (h : cl.hasCollection n = true) :
    (cl.getOrCreateCollection m []).hasCollection n = true := by
  unfold Client.getOrCreateCollection
  split
  · exact h
  · unfold Client.hasCollection at h ⊢
    rw [List.any_append]
    simp [h]

lemma getOrCreate_creates (cl : Client) (n : String) :
    (cl.getOrCreateCollection n []).hasCollection n = true := by
  unfold Client.getOrCreateCollection
  split
  · assumption
  · unfold Client.hasCollection
    rw [List.any_append]
    simp

lemma foldl_getOrCreate_preserves (l : List String) (cl : Client) (n : String)
    (h : cl.hasCollection n = true) :
    (l.foldl (fun cl name => cl.getOrCreateCollection name []) cl).hasCollection n
      = true := by
  induction l generalizing cl with
  | nil => exact h
  | cons m ms ih => exact ih _ (getOrCreate_preserves _ _ _ h)

lemma foldl_getOrCreate_creates (l : List String) (cl : Client) (n : String)
    (hmem : n ∈ l) :
    (l.foldl (fun cl name => cl.getOrCreateCollection name []) cl).hasCollection n
      = true := by
  induction l generalizing cl with
  | nil => exact absurd hmem (List.not_mem_nil n)
  | cons m ms ih =>
    rcases List.mem_cons.mp hmem with heq | htl
    · subst heq
      exact foldl_getOrCreate_preserves ms _ n (getOrCreate_creates _ _)
    · exact ih _ htl

lemma verify_eq_filter_has (cl : Client) :
    verify_collections cl
      = REQUIRED_COLLECTIONS.filter (fun c => !cl.hasCollection c) := by
  unfold verify_collections
  apply List.filter_congr
  intro c _
  rw [contains_names_eq_hasCollection]

/-- C7: `ensure_collections` creates every absent required collection,
returns exactly the names missing before repair, and is idempotent — an
immediately following second call returns the empty list (and leaves the
state unchanged). -/
theorem C7_ensure_collections_idempotent (st : StoreState)
    (hok : st.clientOk = true) :
    ∃ st', ensure_collections st
        = .ok (st', REQUIRED_COLLECTIONS.filter
            (fun c => !st.client.hasCollection c))
      ∧ (∀ n ∈ REQUIRED_COLLECTIONS, st'.client.hasCollection n = true)
      ∧ ensure_collections st' = .ok (st', []) := by
  have hmiss := verify_eq_filter_has st.client
  refine ⟨StoreState.mk st.clientOk
      ((verify_collections st.client).foldl
        (fun cl name => cl.getOrCreateCollection name []) st.client),
    ?_, ?_, ?_⟩
  · unfold ensure_collections
    simp only [clientOrRaise_ok hok]
    rw [hmiss]
  · intro n hn
    show ((verify_collections st.client).foldl
        (fun cl name => cl.getOrCreateCollection name []) st.client).hasCollection n
      = true
    by_cases hc : st.client.hasCollection n = true
    · exact foldl_getOrCreate_preserves _ _ _ hc
    · have hfalse : st.client.hasCollection n = false :=
        Bool.eq_false_iff.mpr hc
      have hmem : n ∈ verify_collections st.client := by
        rw [hmiss]
        exact List.mem_filter.mpr ⟨hn, by rw [hfalse]; rfl⟩
      exact foldl_getOrCreate_creates _ _ _ hmem
  · have hafter : ∀ n ∈ REQUIRED_COLLECTIONS,
        ((verify_collections st.client).foldl
          (fun cl name => cl.getOrCreateCollection name []) st.client).hasCollection n
        = true := by
      intro n hn
      by_cases hc : st.client.hasCollection n = true
      · exact foldl_getOrCreate_preserves _ _ _ hc
      · have hfalse : st.client.hasCollection n = false :=
          Bool.eq_false_iff.mpr hc
        have hmem : n ∈ verify_collections st.client := by
          rw [hmiss]
          exact List.mem_filter.mpr ⟨hn, by rw [hfalse]; rfl⟩
        exact foldl_getOrCreate_creates _ _ _ hmem
    have hverify : verify_collections
        ((verify_collections st.client).foldl
          (fun cl name => cl.getOrCreateCollection name []) st.client) = [] := by
      rw [verify_eq_filter_has]
      apply List.filter_eq_nil_iff.mpr
      intro n hn hpred
      rw [hafter n hn] at hpred
      exact Bool.noConfusion hpred
    have hok' : (StoreState.mk st.clientOk
        ((verify_collections st.client).foldl
          (fun cl name => cl.getOrCreateCollection name []) st.client)).clientOk
        = true := hok
    unfold ensure_collections
    simp only [clientOrRaise_ok hok', hverify, List.foldl_nil]

/-- Witness for C7 at a fresh (empty-client) store. -/
theorem C7_ensure_collections_idempotent_witness :
    ∃ st', ensure_collections { clientOk := true, client := { collections := [] } }
        = .ok (st', REQUIRED_COLLECTIONS.filter
            (fun c => !(Client.mk []).hasCollection c))
      ∧ (∀ n ∈ REQUIRED_COLLECTIONS, st'.client.hasCollection n = true)
      ∧ ensure_collections st' = .ok (st', []) :=
  C7_ensure_collections_idempotent
    { clientOk := true, client := { collections := [] } } (by decide)

/-- Witness for C10 at a concrete one-document store. -/
theorem C10_update_documents_no_validation_witness :
    ∃ st', update_documents c4Store "c" ["present"] none none
      = .ok (st', (["present"] : List String).length,
             { ids := ["present"], documents := none, metadatas := none }) :=
  (C10_update_documents_no_validation c4Store "c" ["present"] none none).2.2
    { name := "c", metadata := [],
      docs := [{ id := "present", document := "text", metadata := [] }] }
    (by decide) (by decide) (by decide)

/-! ## C2: `fork_collection` copies all documents -/

lemma isEmpty_false_of_ne_nil {α : Type} {l : List α} (h : l ≠ []) :
    l.isEmpty = false := by
  cases l with
  | nil => exact absurd rfl h
  | cons a as => rfl

lemma zipDocs_maps (l : List Doc) :
    zipDocs (l.map (fun d => d.id)) (l.map (fun d => d.document))
      (l.map (fun d => d.metadata)) = l := by
  induction l with
  | nil => rfl
  | cons d ds ih =>
    show Doc.mk d.id d.document d.metadata :: zipDocs _ _ _ = d :: ds
    rw [ih]

lemma listOr_nil_default {α : Type} (l : List α) : listOr l [] = l := by
  cases l <;> rfl

lemma listOr_ne_nil {α : Type} (l d : List α) (h : l ≠ []) : listOr l d = l := by
  unfold listOr
  cases l with
  | nil => exact absurd rfl h
  | cons a as => rfl

lemma not_has_all_false {cl : Client} {n : String}
    (h : cl.hasCollection n = false) :
    ∀ c ∈ cl.collections, (c.name == n) = false := by
  intro c hc
  cases hp : (c.name == n) with
  | false => rfl
  | true =>
    have : cl.hasCollection n = true := by
      unfold Client.hasCollection
      exact List.any_eq_true.mpr ⟨c, hc, hp⟩
    rw [h] at this
    exact Bool.noConfusion this

lemma not_has_find?_none {cl : Client} {n : String}
    (h : cl.hasCollection n = false) :
    cl.collections.find? (fun c => c.name == n) = none := by
  apply List.find?_eq_none.mpr
  intro c hc hp
  rw [not_has_all_false h c hc] at hp
  exact Bool.noConfusion hp

lemma find?_singleton_pos {α : Type} (p : α → Bool) (a : α) (h : p a = true) :
    ([a] : List α).find? p = some a :=
  List.find?_cons_of_pos _ h

lemma tryDelete_not_has (cl : Client) (n : String) :
    (tryDeleteCollection cl n).hasCollection n = false := by
  unfold tryDeleteCollection Client.deleteCollection
  cases hh : cl.hasCollection n with
  | false => exact hh
  | true =>
    show (Client.mk (cl.collections.filter (fun c => c.name != n))).hasCollection n
      = false
    unfold Client.hasCollection
    cases hany : (cl.collections.filter (fun c => c.name != n)).any
        (fun c => c.name == n) with
    | false => rfl
    | true =>
      rcases List.any_eq_true.mp hany with ⟨c, hc, hp⟩
      have hne := List.of_mem_filter hc
      rw [bne, hp] at hne
      exact Bool.noConfusion hne

lemma map_setCollection_noop {l : List Collection} {n : String} {x : Collection}
    (h : ∀ c ∈ l, (c.name == n) = false) :
    l.map (fun c => if c.name == n then x else c) = l := by
  have : l.map (fun c => if c.name == n then x else c) = l.map id :=
    List.map_congr_left (fun c hc => by rw [if_neg (by rw [h c hc]; exact Bool.false_ne_true)]; rfl)
  rw [this, List.map_id]

/-- C2: `fork_collection` from a source collection holding the documents
`col.docs` produces a destination under the new name holding exactly the
same ids, documents and metadatas; a collection already occupying the new
name is silently destroyed and replaced (the destination is the only
collection with that name afterwards); an empty source yields an empty
destination with no engine add call issued (the boolean result records
whether add was called). -/
theorem C2_fork_collection_copies (st : StoreState)
    (name newName : String) (md : Option Meta) (col : Collection)
    (hok : st.clientOk = true)
    (hget : st.client.getCollection name = .ok col)
    (hnodup : hasDupIds (col.docs.map (fun d => d.id)) = false) :
    ∃ st', fork_collection st name newName md = .ok (st', !col.docs.isEmpty)
      ∧ st'.client.getCollection newName
          = .ok (Collection.mk newName (pyOrDict md) col.docs)
      ∧ st'.client.collections.filter (fun c => c.name == newName)
          = [Collection.mk newName (pyOrDict md) col.docs] := by
  have h1 : (tryDeleteCollection st.client newName).hasCollection newName
      = false := tryDelete_not_has _ _
  have hcreate : (tryDeleteCollection st.client newName).createCollection
        newName (pyOrDict md)
      = .ok (Client.mk ((tryDeleteCollection st.client newName).collections
              ++ [Collection.mk newName (pyOrDict md) []]),
             Collection.mk newName (pyOrDict md) []) := by
    unfold Client.createCollection
    rw [if_neg (by rw [h1]; exact Bool.false_ne_true)]
  have hget2 : (Client.mk ((tryDeleteCollection st.client newName).collections
        ++ [Collection.mk newName (pyOrDict md) []])).getCollection newName
      = .ok (Collection.mk newName (pyOrDict md) []) := by
    unfold Client.getCollection
    show (match ((tryDeleteCollection st.client newName).collections
        ++ [Collection.mk newName (pyOrDict md) []]).find?
          (fun c => c.name == newName) with
      | some c => Except.ok c
      | none => Except.error EngineError.collectionNotFound) = _
    rw [List.find?_append, not_has_find?_none h1]
    show (match (([Collection.mk newName (pyOrDict md) []] : List Collection).find?
        (fun c => c.name == newName)) with
      | some c => Except.ok c
      | none => Except.error EngineError.collectionNotFound)
      = Except.ok (Collection.mk newName (pyOrDict md) [])
    rw [find?_singleton_pos (fun c : Collection => c.name == newName)
      (Collection.mk newName (pyOrDict md) []) (beq_self_eq_true newName)]
  by_cases hemp : col.docs = []
  · refine ⟨StoreState.mk st.clientOk
        (Client.mk ((tryDeleteCollection st.client newName).collections
          ++ [Collection.mk newName (pyOrDict md) []])), ?_, ?_, ?_⟩
    · unfold fork_collection
      simp only [clientOrRaise_ok hok, hget, Collection.getAll, hcreate]
      rw [listOr_nil_default]
      rw [show (col.docs.map (fun x => x.id)).isEmpty = true by rw [hemp]; rfl]
      rw [if_pos rfl]
      rw [show col.docs.isEmpty = true by rw [hemp]; rfl]
      rfl
    · show (Client.mk ((tryDeleteCollection st.client newName).collections
          ++ [Collection.mk newName (pyOrDict md) []])).getCollection newName
        = Except.ok (Collection.mk newName (pyOrDict md) col.docs)
      rw [hemp]
      exact hget2
    · show ((tryDeleteCollection st.client newName).collections
          ++ [Collection.mk newName (pyOrDict md) []]).filter
            (fun c => c.name == newName)
        = [Collection.mk newName (pyOrDict md) col.docs]
      rw [hemp]
      rw [List.filter_append,
        List.filter_eq_nil_iff.mpr
          (fun c hc => by rw [not_has_all_false h1 c hc]; exact Bool.false_ne_true)]
      simp
  · have hne : col.docs ≠ [] := hemp
    have hidne : col.docs.map (fun x => x.id) ≠ [] := by
      intro hcontra
      exact hne (List.map_eq_nil_iff.mp hcontra)
    have hdocne : col.docs.map (fun x => x.document) ≠ [] := by
      intro hcontra
      exact hne (List.map_eq_nil_iff.mp hcontra)
    have hmetne : col.docs.map (fun x => x.metadata) ≠ [] := by
      intro hcontra
      exact hne (List.map_eq_nil_iff.mp hcontra)
    have hadd : (Collection.mk newName (pyOrDict md) []).add
          (col.docs.map (fun x => x.id))
          (col.docs.map (fun x => x.document))
          (col.docs.map (fun x => x.metadata))
        = .ok (Collection.mk newName (pyOrDict md) col.docs) := by
      unfold Collection.add
      rw [if_pos (by simp [List.length_map])]
      rw [if_pos]
      · rw [List.nil_append, zipDocs_maps]
      · rw [hnodup]
        have hall : (col.docs.map (fun x => x.id)).all
            (fun i => !(Collection.mk newName (pyOrDict md) []).hasId i) = true :=
          List.all_eq_true.mpr (fun i _ => rfl)
        rw [hall]
        rfl
    refine ⟨StoreState.mk st.clientOk
        ((Client.mk ((tryDeleteCollection st.client newName).collections
            ++ [Collection.mk newName (pyOrDict md) []])).setCollection newName
          (Collection.mk newName (pyOrDict md) col.docs)), ?_, ?_, ?_⟩
    · unfold fork_collection
      simp only [clientOrRaise_ok hok, hget, Collection.getAll, hcreate]
      rw [listOr_nil_default, listOr_ne_nil _ _ hdocne, listOr_ne_nil _ _ hmetne]
      rw [isEmpty_false_of_ne_nil hidne]
      simp only [Bool.false_eq_true, if_false, hadd]
      rw [isEmpty_false_of_ne_nil hne]
      rfl
    · show ((Client.mk ((tryDeleteCollection st.client newName).collections
            ++ [Collection.mk newName (pyOrDict md) []])).setCollection newName
          (Collection.mk newName (pyOrDict md) col.docs)).getCollection newName
        = Except.ok (Collection.mk newName (pyOrDict md) col.docs)
      exact setCollection_getCollection hget2
        (show (Collection.mk newName (pyOrDict md) col.docs).name = newName from rfl)
    · show (((tryDeleteCollection st.client newName).collections
            ++ [Collection.mk newName (pyOrDict md) []]).map
              (fun c => if c.name == newName
                then Collection.mk newName (pyOrDict md) col.docs else c)).filter
            (fun c => c.name == newName)
        = [Collection.mk newName (pyOrDict md) col.docs]
      rw [List.map_append,
        map_setCollection_noop (not_has_all_false h1)]
      rw [show ([Collection.mk newName (pyOrDict md) []] : List Collection).map
            (fun c => if c.name == newName
              then Collection.mk newName (pyOrDict md) col.docs else c)
          = [Collection.mk newName (pyOrDict md) col.docs] by
        show [if (newName == newName) = true
            then Collection.mk newName (pyOrDict md) col.docs
            else Collection.mk newName (pyOrDict md) []]
          = [Collection.mk newName (pyOrDict md) col.docs]
        rw [if_pos (beq_self_eq_true newName)]]
      rw [List.filter_append,
        List.filter_eq_nil_iff.mpr
          (fun c hc => by rw [not_has_all_false h1 c hc]; exact Bool.false_ne_true)]
      simp

/-- Witness for C2: forking a two-document collection onto a name that is
already taken. -/
theorem C2_fork_collection_copies_witness :
    ∃ st', fork_collection
        { clientOk := true,
          client := { collections :=
            [{ name := "src", metadata := [],
               docs := [{ id := "a", document := "da", metadata := [("k", "v")] },
                        { id := "b", document := "db", metadata := [] }] },
             { name := "dst", metadata := [("old", "1")],
               docs := [{ id := "z", document := "dz", metadata := [] }] }] } }
        "src" "dst" none
      = .ok (st', !([{ id := "a", document := "da", metadata := [("k", "v")] },
                     { id := "b", document := "db", metadata := [] }]
                    : List Doc).isEmpty)
      ∧ st'.client.getCollection "dst"
          = .ok (Collection.mk "dst" (pyOrDict none)
              [{ id := "a", document := "da", metadata := [("k", "v")] },
               { id := "b", document := "db", metadata := [] }])
      ∧ st'.client.collections.filter (fun c => c.name == "dst")
          = [Collection.mk "dst" (pyOrDict none)
              [{ id := "a", document := "da", metadata := [("k", "v")] },
               { id := "b", document := "db", metadata := [] }]] :=
  C2_fork_collection_copies _ "src" "dst" none
    { name := "src", metadata := [],
      docs := [{ id := "a", document := "da", metadata := [("k", "v")] },
               { id := "b", document := "db", metadata := [] }] }
    (by decide) (by decide) (by decide)

end Cliplin
